import Mathlib

/-!
Shallow embedding of the tutor-dashboard engagement-telemetry core:
the event classifier, reason builder, ingestion append, learner-history
query, status aggregator (backend `activityEventService.ts`), the
client-side telemetry buffer (`telemetry.ts`), and the dashboard's
client-side history sort (`TutorDashboardPage.tsx`).

Timestamps are modelled as integers (JavaScript epoch milliseconds,
`Date.prototype.getTime`).  JSON payloads are modelled by an inductive
`JsonValue` type mirroring `Prisma.JsonValue`.
-/

namespace TutorDashboard

/-- JavaScript `String.prototype.toLowerCase`, modelled character-wise
with `Char.toLower` (adequate here: every classification prefix is
ASCII). -/
def toLowerStr (s : String) : String :=
  ⟨s.data.map Char.toLower⟩

/-- JavaScript `String.prototype.startsWith(p)`: the character sequence
of `p` is a prefix of that of `s`. -/
def startsWithStr (s p : String) : Bool :=
  p.data.isPrefixOf s.data

/-- JavaScript `String.prototype.trim()`: strip leading and trailing
whitespace (ASCII-adequate model via `Char.isWhitespace`). -/
def trimStr (s : String) : String :=
  ⟨((s.data.dropWhile Char.isWhitespace).reverse.dropWhile Char.isWhitespace).reverse⟩

/-- JavaScript `<` on strings: lexicographic comparison of the
character sequences. -/
def charListLt : List Char → List Char → Bool
  | [], [] => false
  | [], _ :: _ => true
  | _ :: _, [] => false
  | a :: as, b :: bs =>
    if a < b then true
    else if b < a then false
    else charListLt as bs

/-- JavaScript string comparison `a < b` lifted to `String`. -/
def strLt (a b : String) : Bool :=
  charListLt a.data b.data

/-- Model of `Prisma.JsonValue`: null, booleans, numbers, strings,
arrays and string-keyed objects.  Numbers carry an opaque integer id;
their arithmetic is irrelevant to the classifier. -/
inductive JsonValue where
  | null : JsonValue
  | bool (b : Bool) : JsonValue
  | num (n : Int) : JsonValue
  | str (s : String) : JsonValue
  | arr (items : List JsonValue) : JsonValue
  | obj (fields : List (String × JsonValue)) : JsonValue

/-- First value bound to `key` in a JS object's field list (JS objects
have unique keys; first match models property lookup). -/
def lookupField (fields : List (String × JsonValue)) (key : String) : Option JsonValue :=
  match fields with
  | [] => none
  | (k, v) :: rest => if k == key then some v else lookupField rest key

/-- `VIDEO_EVENT_PREFIXES` from activityEventService.ts line 27
(the "engaged" group). -/
def VIDEO_EVENT_PREFIXES : List String :=
  ["video.play", "video.resume", "video.buffer.end", "progress.snapshot",
   "persona.", "notes.", "lesson.", "cold_call.", "tutor.response"]

/-- `FRICTION_EVENT_PREFIXES` from activityEventService.ts line 28
(the "content_friction" group). -/
def FRICTION_EVENT_PREFIXES : List String :=
  ["quiz.fail", "quiz.retry", "tutor.prompt", "cold_call.star",
   "cold_call.submit", "tutor.response_received", "content.friction"]

/-- `ATTENTION_EVENT_PREFIXES` from activityEventService.ts line 29
(the "attention_drift" group). -/
def ATTENTION_EVENT_PREFIXES : List String :=
  ["idle.", "video.pause", "video.buffer.start", "lesson.locked_click"]

/-- `buildReason(eventType, payload, fallback)` (activityEventService.ts
lines 58-66): if the payload is a non-null JS object whose `reason`
property is a string with non-blank trim, return that string verbatim;
otherwise synthesize `"<fallback> (<eventType>)"`.  JS `typeof x ===
"object"` is true for null, arrays and objects; the `payload &&` guard
excludes null, and `"reason" in payload` is false for (non-index-keyed)
arrays, so only the object case can return a verbatim reason. -/
def buildReason (eventType : String) (payload : Option JsonValue) (fallback : String) : String :=
  match payload with
  | some (JsonValue.obj fields) =>
    match lookupField fields "reason" with
    | some (JsonValue.str possible) =>
      if trimStr possible ≠ "" then possible
      else fallback ++ " (" ++ eventType ++ ")"
    | _ => fallback ++ " (" ++ eventType ++ ")"
  | _ => fallback ++ " (" ++ eventType ++ ")"

/-- Result record of `classifyEvent`: the two optional output fields. -/
structure ClassifyResult where
  derivedStatus : Option String
  statusReason : Option String
deriving DecidableEq, Repr

/-- `classifyEvent(eventType, payload)` (activityEventService.ts lines
31-56): lower-case the event type, then test the attention-drift,
content-friction and engaged groups in that order; the first group with
a matching string-starts-with wins; no match yields the empty result. -/
def classifyEvent (eventType : String) (payload : Option JsonValue) : ClassifyResult :=
  let normalized := toLowerStr eventType
  if ATTENTION_EVENT_PREFIXES.any (fun p => startsWithStr normalized p) then
    { derivedStatus := some "attention_drift",
      statusReason := some (buildReason eventType payload "Idle or pause pattern detected") }
  else if FRICTION_EVENT_PREFIXES.any (fun p => startsWithStr normalized p) then
    { derivedStatus := some "content_friction",
      statusReason := some (buildReason eventType payload "Learner signaled friction") }
  else if VIDEO_EVENT_PREFIXES.any (fun p => startsWithStr normalized p) then
    { derivedStatus := some "engaged",
      statusReason := some (buildReason eventType payload "Learner interacting with content") }
  else
    { derivedStatus := none, statusReason := none }

/-- `TelemetryEventInput` (activityEventService.ts lines 4-11); the
optional `occurredAt` is an epoch-millisecond timestamp. -/
structure TelemetryEventInput where
  courseId : String
  moduleNo : Option Int
  topicId : Option String
  eventType : String
  payload : Option JsonValue
  occurredAt : Option Int

/-- A stored `learner_activity_events` row as produced by
`recordActivityEvents` (activityEventService.ts lines 73-86).
`payload` is always present: a missing input payload is stored as
`Prisma.JsonNull`. -/
structure StoredRow where
  userId : String
  courseId : String
  moduleNo : Option Int
  topicId : Option String
  eventType : String
  payload : JsonValue
  derivedStatus : Option String
  statusReason : Option String
  createdAt : Int

/-- `recordActivityEvents(userId, events)` (activityEventService.ts
lines 68-91) as a pure function: `serverNow` is the timestamp `new
Date()` would produce at ingestion.  Each input event is classified and
mapped to the row that `createMany` inserts; the empty batch inserts
nothing. -/
def recordActivityEvents (userId : String) (events : List TelemetryEventInput)
    (serverNow : Int) : List StoredRow :=
  events.map fun event =>
    let result := classifyEvent event.eventType event.payload
    { userId := userId,
      courseId := event.courseId,
      moduleNo := event.moduleNo,
      topicId := event.topicId,
      eventType := event.eventType,
      payload := event.payload.getD JsonValue.null,
      derivedStatus := result.derivedStatus,
      statusReason := result.statusReason,
      createdAt := event.occurredAt.getD serverNow }

/-- `LearnerStatusRow` (activityEventService.ts lines 13-25), the shape
returned by the raw SQL queries and consumed by the aggregator. -/
structure LearnerStatusRow where
  eventId : String
  userId : String
  courseId : String
  fullName : Option String
  email : Option String
  moduleNo : Option Int
  topicId : Option String
  eventType : String
  derivedStatus : Option String
  statusReason : Option String
  createdAt : Int
deriving DecidableEq, Repr

/-- One step of the stable descending-by-`createdAt` insertion sort:
`e` is placed after every already-placed element with a strictly larger
timestamp and before the rest. -/
def insertDesc (e : LearnerStatusRow) : List LearnerStatusRow → List LearnerStatusRow
  | [] => [e]
  | x :: xs =>
    if e.createdAt < x.createdAt then x :: insertDesc e xs
    else e :: x :: xs

/-- Model of the JavaScript stable sort
`[...events].sort((a, b) => b.createdAt.getTime() - a.createdAt.getTime())`
(activityEventService.ts line 198): newest first, ties keep their
original relative order. -/
def sortDesc (events : List LearnerStatusRow) : List LearnerStatusRow :=
  events.foldr insertDesc []

/-- `deriveStatusFromEvents(events)` (activityEventService.ts lines
194-214): sort the window newest-first, probe for the most recent
`content_friction`, `attention_drift` and `engaged` rows, and return the
first probe that hits in that priority order; if none hits, the most
recent row of the window (`sorted[0]`) is the fallback; an empty window
yields null. -/
def deriveStatusFromEvents (events : List LearnerStatusRow) : Option LearnerStatusRow :=
  match events with
  | [] => none
  | _ :: _ =>
    let sorted := sortDesc events
    let frictionEvent := sorted.find? (fun e => e.derivedStatus == some "content_friction")
    let attentionEvent := sorted.find? (fun e => e.derivedStatus == some "attention_drift")
    let engagedEvent := sorted.find? (fun e => e.derivedStatus == some "engaged")
    match frictionEvent with
    | some e => some { e with derivedStatus := some "content_friction" }
    | none =>
      match attentionEvent with
      | some e => some { e with derivedStatus := some "attention_drift" }
      | none =>
        match engagedEvent with
        | some e => some { e with derivedStatus := some "engaged" }
        | none => sorted.head?

/-- `getLearnerHistory` (activityEventService.ts lines 144-173) over an
explicit table of rows: filter by learner, course and the optional
`before` cursor (`created_at < before`), order by `created_at DESC`, and
take `limit` rows.  The SQL `ORDER BY created_at DESC` carries no
secondary sort key, so rows with equal timestamps come back in an
order the query does not constrain; the model refines it
deterministically with the stable `sortDesc` (equal timestamps keep
table order). -/
def getLearnerHistory (table : List LearnerStatusRow) (userId courseId : String)
    (limit : Nat) (before : Option Int) : List LearnerStatusRow :=
  let filtered := table.filter fun r =>
    r.userId == userId && r.courseId == courseId &&
      (match before with
       | some b => decide (r.createdAt < b)
       | none => true)
  (sortDesc filtered).take limit

/-- The comparator of the dashboard's `sortedHistoryEvents`
(TutorDashboardPage.tsx lines 381-392): primary key `createdAt`
descending; on equal timestamps, when both event ids are truthy
(non-empty) and distinct, the larger id sorts first (id descending);
otherwise the rows compare equal. -/
def historyCmp (a b : LearnerStatusRow) : Int :=
  if a.createdAt ≠ b.createdAt then b.createdAt - a.createdAt
  else if a.eventId ≠ "" ∧ b.eventId ≠ "" ∧ a.eventId ≠ b.eventId then
    if strLt a.eventId b.eventId then 1 else -1
  else 0

/-- Stable insertion for the dashboard comparator: `e` goes after every
already-placed element that compares strictly before it. -/
def insertHistory (e : LearnerStatusRow) : List LearnerStatusRow → List LearnerStatusRow
  | [] => [e]
  | x :: xs =>
    if historyCmp x e < 0 then x :: insertHistory e xs
    else e :: x :: xs

/-- `sortedHistoryEvents` (TutorDashboardPage.tsx lines 381-392): the
client-side stable sort of the fetched history under `historyCmp`. -/
def sortedHistoryEvents (historyEvents : List LearnerStatusRow) : List LearnerStatusRow :=
  historyEvents.foldr insertHistory []

/-- The client-side telemetry event shape (telemetry.ts lines 4-11);
`occurredAt` is an optional ISO-8601 string. -/
structure ClientEvent where
  courseId : String
  moduleNo : Option Int
  topicId : Option String
  eventType : String
  payload : Option JsonValue
  occurredAt : Option String

/-- `BUFFER_FLUSH_INTERVAL_MS = 4000` (telemetry.ts line 13). -/
def BUFFER_FLUSH_INTERVAL_MS : Nat := 4000

/-- `MAX_BUFFER_SIZE = 20` (telemetry.ts line 14). -/
def MAX_BUFFER_SIZE : Nat := 20

/-- The module-level mutable state of telemetry.ts: `currentToken`,
`buffer` and whether a flush timer is pending (`flushTimer !== null`).
The model assumes a browser context (`isBrowser = true`). -/
structure TelemetryState where
  currentToken : Option String
  buffer : List ClientEvent
  flushTimer : Bool

/-- `flushBuffer()` (telemetry.ts lines 22-40) up to its synchronous
effect on the module state: with no token or an empty buffer it does
nothing; otherwise it copies the queue, empties it before any network
I/O, and sends the copy (each event's missing `occurredAt` filled with
the current time) as one batch.  The returned option is the batch handed
to the network, `none` when nothing was sent. -/
def flushBuffer (st : TelemetryState) (nowIso : String) :
    TelemetryState × Option (List ClientEvent) :=
  match st.currentToken with
  | none => (st, none)
  | some _ =>
    match st.buffer with
    | [] => (st, none)
    | _ :: _ =>
      ({ st with buffer := [] },
       some (st.buffer.map fun event =>
         { event with occurredAt := some (event.occurredAt.getD nowIso) }))

/-- `scheduleFlush()` (telemetry.ts lines 42-50): start the 4-second
timer unless one is already pending. -/
def scheduleFlush (st : TelemetryState) : TelemetryState :=
  if st.flushTimer then st else { st with flushTimer := true }

/-- `updateTelemetryAccessToken(token)` (telemetry.ts lines 52-61):
install the token; clearing it also abandons the buffer and cancels any
pending timer. -/
def updateTelemetryAccessToken (st : TelemetryState) (token : Option String) :
    TelemetryState :=
  match token with
  | some t => { st with currentToken := some t }
  | none => { currentToken := none, buffer := [], flushTimer := false }

/-- `recordTelemetryEvent(event)` (telemetry.ts lines 63-73): dropped
silently without a token; otherwise the event is pushed, and if the
queue has reached `MAX_BUFFER_SIZE` it is flushed immediately (the
pending-timer flag is left as is and `scheduleFlush` is skipped),
else a flush is merely scheduled.  Returns the new state and the batch
sent immediately, if any. -/
def recordTelemetryEvent (st : TelemetryState) (event : ClientEvent) (nowIso : String) :
    TelemetryState × Option (List ClientEvent) :=
  match st.currentToken with
  | none => (st, none)
  | some _ =>
    let pushed : TelemetryState := { st with buffer := st.buffer ++ [event] }
    if MAX_BUFFER_SIZE ≤ pushed.buffer.length then
      flushBuffer pushed nowIso
    else
      (scheduleFlush pushed, none)

/-- Concrete row builder used to instantiate theorems on sample data:
a row for learner `u` in course `c` with the given event id, derived
status and timestamp. -/
def sampleRow (id : String) (status : Option String) (t : Int) : LearnerStatusRow :=
  { eventId := id, userId := "u", courseId := "c", fullName := none, email := none,
    moduleNo := none, topicId := none, eventType := "et-" ++ id,
    derivedStatus := status, statusReason := none, createdAt := t }

/-- Concrete ingestion input used to instantiate theorems: a
`video.play` event carrying a client `occurredAt` of 1000. -/
def sampleInput : TelemetryEventInput :=
  { courseId := "c", moduleNo := none, topicId := none, eventType := "video.play",
    payload := none, occurredAt := some 1000 }

/-- Concrete client-side telemetry event used to instantiate theorems. -/
def sampleClientEvent : ClientEvent :=
  { courseId := "course", moduleNo := none, topicId := none, eventType := "video.play",
    payload := none, occurredAt := none }

/-- A telemetry buffer state holding 19 events with an active session
token and a pending flush timer. -/
def bufferedNineteen : TelemetryState :=
  { currentToken := some "tok", buffer := List.replicate 19 sampleClientEvent,
    flushTimer := true }

/-- The strict "comes before" order that `historyCmp` implements on
rows with non-empty, distinct event ids: newest first, ties broken by
event id descending. -/
def historyBefore (a b : LearnerStatusRow) : Prop :=
  b.createdAt < a.createdAt ∨
    (b.createdAt = a.createdAt ∧ strLt b.eventId a.eventId = true)

theorem sortDesc_cons (x : LearnerStatusRow) (xs : List LearnerStatusRow) :
    sortDesc (x :: xs) = insertDesc x (sortDesc xs) := rfl

theorem mem_insertDesc {a e : LearnerStatusRow} {l : List LearnerStatusRow} :
    a ∈ insertDesc e l ↔ a = e ∨ a ∈ l := by
  induction l with
  | nil => simp [insertDesc]
  | cons x xs ih =>
    by_cases h : e.createdAt < x.createdAt
    · simp only [insertDesc, if_pos h, List.mem_cons, ih]
      tauto
    · simp only [insertDesc, if_neg h, List.mem_cons]

theorem mem_sortDesc {a : LearnerStatusRow} {l : List LearnerStatusRow} :
    a ∈ sortDesc l ↔ a ∈ l := by
  induction l with
  | nil => simp [sortDesc]
  | cons x xs ih =>
    rw [sortDesc_cons, mem_insertDesc, List.mem_cons, ih]

theorem pairwise_insertDesc {e : LearnerStatusRow} {l : List LearnerStatusRow}
    (h : List.Pairwise (fun a b => b.createdAt ≤ a.createdAt) l) :
    List.Pairwise (fun a b => b.createdAt ≤ a.createdAt) (insertDesc e l) := by
  induction l with
  | nil => simp [insertDesc]
  | cons x xs ih =>
    rcases List.pairwise_cons.mp h with ⟨hx, hxs⟩
    by_cases hc : e.createdAt < x.createdAt
    · rw [insertDesc, if_pos hc]
      refine List.pairwise_cons.mpr ⟨?_, ih hxs⟩
      intro b hb
      rcases mem_insertDesc.mp hb with rfl | hbx
      · exact le_of_lt hc
      · exact hx b hbx
    · rw [insertDesc, if_neg hc]
      refine List.pairwise_cons.mpr ⟨?_, h⟩
      intro b hb
      rcases List.mem_cons.mp hb with rfl | hbxs
      · exact not_lt.mp hc
      · exact le_trans (hx b hbxs) (not_lt.mp hc)

theorem pairwise_sortDesc (l : List LearnerStatusRow) :
    List.Pairwise (fun a b => b.createdAt ≤ a.createdAt) (sortDesc l) := by
  induction l with
  | nil => simp [sortDesc]
  | cons x xs ih => rw [sortDesc_cons]; exact pairwise_insertDesc ih

theorem find?_max_of_pairwise {p : LearnerStatusRow → Bool}
    {l : List LearnerStatusRow} {f e : LearnerStatusRow}
    (hp : List.Pairwise (fun a b => b.createdAt ≤ a.createdAt) l)
    (hf : l.find? p = some f) (he : e ∈ l) (hpe : p e = true) :
    e.createdAt ≤ f.createdAt := by
  induction l with
  | nil => cases he
  | cons x xs ih =>
    rcases List.pairwise_cons.mp hp with ⟨hx, hxs⟩
    by_cases hpx : p x = true
    · rw [List.find?_cons_of_pos _ hpx] at hf
      cases hf
      rcases List.mem_cons.mp he with rfl | hexs
      · exact le_refl _
      · exact hx e hexs
    · rw [List.find?_cons_of_neg _ (by simpa using hpx)] at hf
      rcases List.mem_cons.mp he with rfl | hexs
      · exact absurd hpe hpx
      · exact ih hxs hf hexs

theorem head_max_of_pairwise {x : LearnerStatusRow} {xs : List LearnerStatusRow}
    {e : LearnerStatusRow}
    (hp : List.Pairwise (fun a b => b.createdAt ≤ a.createdAt) (x :: xs))
    (he : e ∈ x :: xs) : e.createdAt ≤ x.createdAt := by
  rcases List.pairwise_cons.mp hp with ⟨hx, _⟩
  rcases List.mem_cons.mp he with rfl | hexs
  · exact le_refl _
  · exact hx e hexs

theorem set_status_eq_self {r : LearnerStatusRow} {s : Option String}
    (h : r.derivedStatus = s) : { r with derivedStatus := s } = r := by
  cases r
  cases h
  rfl

/-- C3: a window holding a `content_friction` event and a strictly more
recent `engaged` event aggregates to `content_friction`; the
representative `eventType`/`statusReason`/`createdAt` come from a
`content_friction` row of the window (the most recent one, no earlier
than `f`), not from the more recent engaged row. -/
theorem aggregator_friction_over_recent_engaged
    (events : List LearnerStatusRow) (f g : LearnerStatusRow)
    (hf : f ∈ events) (hfs : f.derivedStatus = some "content_friction")
    (hg : g ∈ events) (hgs : g.derivedStatus = some "engaged")
    (hrec : f.createdAt < g.createdAt) :
    ∃ r c, deriveStatusFromEvents events = some r ∧
      r.derivedStatus = some "content_friction" ∧
      c ∈ events ∧ c.derivedStatus = some "content_friction" ∧
      r.eventType = c.eventType ∧ r.statusReason = c.statusReason ∧
      r.createdAt = c.createdAt ∧ f.createdAt ≤ r.createdAt := by
  cases events with
  | nil => cases hf
  | cons y ys =>
    have hfs' : (fun e => e.derivedStatus == some "content_friction") f = true := by
      simp [hfs]
    have hmem : f ∈ sortDesc (y :: ys) := mem_sortDesc.mpr hf
    have hsome :
        ((sortDesc (y :: ys)).find? (fun e => e.derivedStatus == some "content_friction")).isSome := by
      rw [List.find?_isSome]
      exact ⟨f, hmem, hfs'⟩
    rcases Option.isSome_iff_exists.mp hsome with ⟨c, hc⟩
    have hcmem : c ∈ y :: ys := mem_sortDesc.mp (List.mem_of_find?_eq_some hc)
    have hcstatus : c.derivedStatus = some "content_friction" := by
      simpa using List.find?_some hc
    have hle : f.createdAt ≤ c.createdAt :=
      find?_max_of_pairwise (pairwise_sortDesc _) hc hmem hfs'
    refine ⟨{ c with derivedStatus := some "content_friction" }, c, ?_, rfl, hcmem,
      hcstatus, rfl, rfl, rfl, hle⟩
    simp only [deriveStatusFromEvents]
    rw [hc]

/-- C3 witness at a concrete two-event window: friction at time 1,
engaged at time 5. -/
theorem aggregator_friction_over_recent_engaged_witness :
    ∃ r c,
      deriveStatusFromEvents
        [sampleRow "a" (some "content_friction") 1, sampleRow "b" (some "engaged") 5] = some r ∧
      r.derivedStatus = some "content_friction" ∧
      c ∈ [sampleRow "a" (some "content_friction") 1, sampleRow "b" (some "engaged") 5] ∧
      c.derivedStatus = some "content_friction" ∧
      r.eventType = c.eventType ∧ r.statusReason = c.statusReason ∧
      r.createdAt = c.createdAt ∧ (sampleRow "a" (some "content_friction") 1).createdAt ≤ r.createdAt :=
  aggregator_friction_over_recent_engaged
    [sampleRow "a" (some "content_friction") 1, sampleRow "b" (some "engaged") 5]
    (sampleRow "a" (some "content_friction") 1) (sampleRow "b" (some "engaged") 5)
    (by decide) (by decide) (by decide) (by decide) (by decide)

/-- C6: with no `content_friction` in the window and exactly the
attention-drift rows `a` and `b` present, `b` strictly older, the
aggregator returns `a`, the more recent attention-drift event. -/
theorem aggregator_attention_recency
    (events : List LearnerStatusRow) (a b : LearnerStatusRow)
    (ha : a ∈ events) (has : a.derivedStatus = some "attention_drift")
    (hb : b ∈ events) (hbs : b.derivedStatus = some "attention_drift")
    (hab : b.createdAt < a.createdAt)
    (hnf : ∀ x ∈ events, x.derivedStatus ≠ some "content_friction")
    (honly : ∀ x ∈ events, x.derivedStatus = some "attention_drift" → x = a ∨ x = b) :
    deriveStatusFromEvents events = some a := by
  cases events with
  | nil => cases ha
  | cons y ys =>
    have hnone :
        (sortDesc (y :: ys)).find? (fun e => e.derivedStatus == some "content_friction") = none := by
      rw [List.find?_eq_none]
      intro x hx
      simpa using hnf x (mem_sortDesc.mp hx)
    have has' : (fun e => e.derivedStatus == some "attention_drift") a = true := by
      simp [has]
    have hmem : a ∈ sortDesc (y :: ys) := mem_sortDesc.mpr ha
    have hsome :
        ((sortDesc (y :: ys)).find? (fun e => e.derivedStatus == some "attention_drift")).isSome := by
      rw [List.find?_isSome]
      exact ⟨a, hmem, has'⟩
    rcases Option.isSome_iff_exists.mp hsome with ⟨c, hc⟩
    have hcmem : c ∈ y :: ys := mem_sortDesc.mp (List.mem_of_find?_eq_some hc)
    have hcstatus : c.derivedStatus = some "attention_drift" := by
      simpa using List.find?_some hc
    have hle : a.createdAt ≤ c.createdAt :=
      find?_max_of_pairwise (pairwise_sortDesc _) hc hmem has'
    have hca : c = a := by
      rcases honly c hcmem hcstatus with h | h
      · exact h
      · exact absurd (h ▸ hle) (not_le.mpr hab)
    subst hca
    simp only [deriveStatusFromEvents]
    rw [hnone, hc]
    show some { c with derivedStatus := some "attention_drift" } = some c
    rw [set_status_eq_self hcstatus]

/-- C6 witness at a concrete window: attention at times 5 and 1 plus a
more recent engaged event; the time-5 attention row is returned. -/
theorem aggregator_attention_recency_witness :
    deriveStatusFromEvents
      [sampleRow "a" (some "attention_drift") 5, sampleRow "b" (some "attention_drift") 1,
       sampleRow "c" (some "engaged") 9] = some (sampleRow "a" (some "attention_drift") 5) :=
  aggregator_attention_recency
    [sampleRow "a" (some "attention_drift") 5, sampleRow "b" (some "attention_drift") 1,
     sampleRow "c" (some "engaged") 9]
    (sampleRow "a" (some "attention_drift") 5) (sampleRow "b" (some "attention_drift") 1)
    (by decide) (by decide) (by decide) (by decide) (by decide) (by decide) (by decide)

/-- C7: an unclassified row is never the representative while any
`content_friction`, `attention_drift` or `engaged` row is in the
window; and a non-empty all-unclassified window falls back to its most
recent (unclassified) row. -/
theorem aggregator_unclassified_fallback (events : List LearnerStatusRow) :
    ((∃ x ∈ events, x.derivedStatus = some "content_friction" ∨
        x.derivedStatus = some "attention_drift" ∨ x.derivedStatus = some "engaged") →
      ∃ r, deriveStatusFromEvents events = some r ∧ r.derivedStatus ≠ none) ∧
    (events ≠ [] → (∀ x ∈ events, x.derivedStatus = none) →
      ∃ r, deriveStatusFromEvents events = some r ∧ r ∈ events ∧ r.derivedStatus = none ∧
        ∀ x ∈ events, x.createdAt ≤ r.createdAt) := by
  constructor
  · rintro ⟨x, hx, hst⟩
    cases events with
    | nil => cases hx
    | cons y ys =>
      have hx' : x ∈ sortDesc (y :: ys) := mem_sortDesc.mpr hx
      rcases hfr : (sortDesc (y :: ys)).find? (fun e => e.derivedStatus == some "content_friction")
        with _ | c
      · rcases hat : (sortDesc (y :: ys)).find? (fun e => e.derivedStatus == some "attention_drift")
          with _ | c
        · rcases hen : (sortDesc (y :: ys)).find? (fun e => e.derivedStatus == some "engaged")
            with _ | c
          · exfalso
            rw [List.find?_eq_none] at hfr hat hen
            rcases hst with h | h | h
            · exact hfr x hx' (by simp [h])
            · exact hat x hx' (by simp [h])
            · exact hen x hx' (by simp [h])
          · refine ⟨{ c with derivedStatus := some "engaged" }, ?_, by simp⟩
            simp only [deriveStatusFromEvents]
            rw [hfr, hat, hen]
        · refine ⟨{ c with derivedStatus := some "attention_drift" }, ?_, by simp⟩
          simp only [deriveStatusFromEvents]
          rw [hfr, hat]
      · refine ⟨{ c with derivedStatus := some "content_friction" }, ?_, by simp⟩
        simp only [deriveStatusFromEvents]
        rw [hfr]
  · intro hne hall
    cases events with
    | nil => exact absurd rfl hne
    | cons y ys =>
      have hfr :
          (sortDesc (y :: ys)).find? (fun e => e.derivedStatus == some "content_friction") = none := by
        rw [List.find?_eq_none]
        intro x hx
        simp [hall x (mem_sortDesc.mp hx)]
      have hat :
          (sortDesc (y :: ys)).find? (fun e => e.derivedStatus == some "attention_drift") = none := by
        rw [List.find?_eq_none]
        intro x hx
        simp [hall x (mem_sortDesc.mp hx)]
      have hen :
          (sortDesc (y :: ys)).find? (fun e => e.derivedStatus == some "engaged") = none := by
        rw [List.find?_eq_none]
        intro x hx
        simp [hall x (mem_sortDesc.mp hx)]
      obtain ⟨h, t, hsort⟩ : ∃ h t, sortDesc (y :: ys) = h :: t := by
        cases hs : sortDesc (y :: ys) with
        | nil =>
          exfalso
          have hmem := mem_sortDesc.mpr (List.mem_cons_self y ys)
          rw [hs] at hmem
          cases hmem
        | cons h t => exact ⟨h, t, rfl⟩
      have hhm : h ∈ y :: ys := mem_sortDesc.mp (hsort ▸ List.mem_cons_self h t)
      refine ⟨h, ?_, hhm, hall h hhm, ?_⟩
      · simp only [deriveStatusFromEvents]
        rw [hfr, hat, hen, hsort]
        rfl
      · intro x hx
        have hx' : x ∈ sortDesc (y :: ys) := mem_sortDesc.mpr hx
        rw [hsort] at hx'
        exact head_max_of_pairwise (hsort ▸ pairwise_sortDesc (y :: ys)) hx'

/-- C7 witness: a window with one engaged row never returns its
unclassified neighbour, and a two-row all-unclassified window returns
its most recent row. -/
theorem aggregator_unclassified_fallback_witness :
    (∃ r, deriveStatusFromEvents
        [sampleRow "a" none 9, sampleRow "b" (some "engaged") 1] = some r ∧
      r.derivedStatus ≠ none) ∧
    (∃ r, deriveStatusFromEvents [sampleRow "a" none 1, sampleRow "b" none 5] = some r ∧
      r ∈ [sampleRow "a" none 1, sampleRow "b" none 5] ∧ r.derivedStatus = none ∧
      ∀ x ∈ [sampleRow "a" none 1, sampleRow "b" none 5], x.createdAt ≤ r.createdAt) :=
  ⟨(aggregator_unclassified_fallback
      [sampleRow "a" none 9, sampleRow "b" (some "engaged") 1]).1
      ⟨sampleRow "b" (some "engaged") 1, by decide, by decide⟩,
   (aggregator_unclassified_fallback
      [sampleRow "a" none 1, sampleRow "b" none 5]).2 (by decide) (by decide)⟩

/-- C1: any event type that (case-insensitively) starts with an
attention-drift prefix is classified `attention_drift`, whatever other
groups it would also match: the attention group is tested first. -/
theorem classify_attention_priority (eventType : String) (payload : Option JsonValue)
    (h : ∃ p ∈ ATTENTION_EVENT_PREFIXES, startsWithStr (toLowerStr eventType) p = true) :
    (classifyEvent eventType payload).derivedStatus = some "attention_drift" := by
  have hany :
      (ATTENTION_EVENT_PREFIXES.any fun p => startsWithStr (toLowerStr eventType) p) = true := by
    rw [List.any_eq_true]
    rcases h with ⟨p, hp, hs⟩
    exact ⟨p, hp, hs⟩
  simp [classifyEvent, hany]

/-- C1 witness: `Lesson.Locked_Click_next` also starts with the engaged
prefix `lesson.`, yet classifies as `attention_drift`. -/
theorem classify_attention_priority_witness :
    startsWithStr (toLowerStr "Lesson.Locked_Click_next") "lesson." = true ∧
    (classifyEvent "Lesson.Locked_Click_next" none).derivedStatus = some "attention_drift" :=
  ⟨by decide,
   classify_attention_priority "Lesson.Locked_Click_next" none
     ⟨"lesson.locked_click", by decide, by decide⟩⟩

/-- C8: an event type starting with no prefix of any of the three
groups is unclassified: both output fields are absent. -/
theorem classify_no_match_unclassified (eventType : String) (payload : Option JsonValue)
    (ha : ∀ p ∈ ATTENTION_EVENT_PREFIXES, startsWithStr (toLowerStr eventType) p = false)
    (hf : ∀ p ∈ FRICTION_EVENT_PREFIXES, startsWithStr (toLowerStr eventType) p = false)
    (hv : ∀ p ∈ VIDEO_EVENT_PREFIXES, startsWithStr (toLowerStr eventType) p = false) :
    (classifyEvent eventType payload).derivedStatus = none ∧
    (classifyEvent eventType payload).statusReason = none := by
  have h1 :
      (ATTENTION_EVENT_PREFIXES.any fun p => startsWithStr (toLowerStr eventType) p) = false := by
    rw [List.any_eq_false]
    intro p hp
    simp [ha p hp]
  have h2 :
      (FRICTION_EVENT_PREFIXES.any fun p => startsWithStr (toLowerStr eventType) p) = false := by
    rw [List.any_eq_false]
    intro p hp
    simp [hf p hp]
  have h3 :
      (VIDEO_EVENT_PREFIXES.any fun p => startsWithStr (toLowerStr eventType) p) = false := by
    rw [List.any_eq_false]
    intro p hp
    simp [hv p hp]
  constructor <;> simp [classifyEvent, h1, h2, h3]

/-- C8 witness: `quiz.pass` matches no prefix and is stored
unclassified. -/
theorem classify_no_match_unclassified_witness :
    (classifyEvent "quiz.pass" none).derivedStatus = none ∧
    (classifyEvent "quiz.pass" none).statusReason = none :=
  classify_no_match_unclassified "quiz.pass" none (by decide) (by decide) (by decide)

/-- Helper: the synthesized reason and the verbatim reason are both
non-empty, so `buildReason` never returns the empty string when the
fallback phrase is non-empty. -/
theorem buildReason_ne_empty (eventType fb : String) (payload : Option JsonValue)
    (hfb : fb ≠ "") : buildReason eventType payload fb ≠ "" := by
  have hsynth : fb ++ " (" ++ eventType ++ ")" ≠ "" := by
    intro hcon
    have hdata := congrArg String.data hcon
    simp [String.data_append] at hdata
  rcases payload with _ | j
  · simpa [buildReason] using hsynth
  · rcases j with _ | b | n | s | items | fields
    · simpa [buildReason] using hsynth
    · simpa [buildReason] using hsynth
    · simpa [buildReason] using hsynth
    · simpa [buildReason] using hsynth
    · simpa [buildReason] using hsynth
    · rcases hlf : lookupField fields "reason" with _ | v
      · simpa [buildReason, hlf] using hsynth
      · rcases v with _ | b | n | s | items | f2
        · simpa [buildReason, hlf] using hsynth
        · simpa [buildReason, hlf] using hsynth
        · simpa [buildReason, hlf] using hsynth
        · by_cases htrim : trimStr s = ""
          · simpa [buildReason, hlf, htrim] using hsynth
          · simp only [buildReason, hlf, if_pos htrim]
            intro hcon
            rw [hcon] at htrim
            exact htrim rfl
        · simpa [buildReason, hlf] using hsynth
        · simpa [buildReason, hlf] using hsynth

/-- C10: the classifier's outputs are paired: either both absent
(unclassified) or both present, with the status one of the three
engagement labels and the reason a non-empty string. -/
theorem classify_output_invariant (eventType : String) (payload : Option JsonValue) :
    ((classifyEvent eventType payload).derivedStatus = none ∧
      (classifyEvent eventType payload).statusReason = none) ∨
    (∃ st rs, (classifyEvent eventType payload).derivedStatus = some st ∧
      (classifyEvent eventType payload).statusReason = some rs ∧
      (st = "attention_drift" ∨ st = "content_friction" ∨ st = "engaged") ∧ rs ≠ "") := by
  unfold classifyEvent
  by_cases h1 : (ATTENTION_EVENT_PREFIXES.any fun p => startsWithStr (toLowerStr eventType) p) = true
  · right
    refine ⟨"attention_drift", buildReason eventType payload "Idle or pause pattern detected",
      ?_, ?_, Or.inl rfl, buildReason_ne_empty _ _ _ (by decide)⟩ <;> simp [h1]
  · by_cases h2 : (FRICTION_EVENT_PREFIXES.any fun p => startsWithStr (toLowerStr eventType) p) = true
    · right
      refine ⟨"content_friction", buildReason eventType payload "Learner signaled friction",
        ?_, ?_, Or.inr (Or.inl rfl), buildReason_ne_empty _ _ _ (by decide)⟩ <;> simp [h1, h2]
    · by_cases h3 : (VIDEO_EVENT_PREFIXES.any fun p => startsWithStr (toLowerStr eventType) p) = true
      · right
        refine ⟨"engaged", buildReason eventType payload "Learner interacting with content",
          ?_, ?_, Or.inr (Or.inr rfl), buildReason_ne_empty _ _ _ (by decide)⟩ <;> simp [h1, h2, h3]
      · left
        constructor <;> simp [h1, h2, h3]

/-- C5 counterexample: a payload whose `reason` is the non-empty string
`" "` does not surface verbatim; the classifier synthesizes the
fallback text instead, because the code additionally requires a
non-blank `reason.trim()`. -/
theorem reason_blank_counterexample :
    (" " : String) ≠ "" ∧
    (classifyEvent "idle.detected"
        (some (JsonValue.obj [("reason", JsonValue.str " ")]))).statusReason ≠ some " " ∧
    (classifyEvent "idle.detected"
        (some (JsonValue.obj [("reason", JsonValue.str " ")]))).statusReason =
      some "Idle or pause pattern detected (idle.detected)" := by
  refine ⟨by decide, by decide, by decide⟩

/-- C5 amended: a `payload.reason` string that is non-empty after
trimming whitespace is used verbatim (and is the classifier's
`statusReason` whenever the event is classified); a whitespace-only
`reason` falls back to the synthesized `"<fallback> (<eventType>)"`. -/
theorem reason_verbatim_amended (eventType fb s : String)
    (fields : List (String × JsonValue))
    (hlook : lookupField fields "reason" = some (JsonValue.str s)) :
    (trimStr s ≠ "" → buildReason eventType (some (JsonValue.obj fields)) fb = s) ∧
    (trimStr s = "" →
      buildReason eventType (some (JsonValue.obj fields)) fb = fb ++ " (" ++ eventType ++ ")") ∧
    (trimStr s ≠ "" → ∀ st,
      (classifyEvent eventType (some (JsonValue.obj fields))).derivedStatus = some st →
      (classifyEvent eventType (some (JsonValue.obj fields))).statusReason = some s) := by
  refine ⟨fun h => ?_, fun h => ?_, fun h st hst => ?_⟩
  · simp [buildReason, hlook, h]
  · simp [buildReason, hlook, h]
  · have hbr : ∀ fb' : String,
        buildReason eventType (some (JsonValue.obj fields)) fb' = s := by
      intro fb'
      simp [buildReason, hlook, h]
    unfold classifyEvent at hst ⊢
    by_cases h1 :
        (ATTENTION_EVENT_PREFIXES.any fun p => startsWithStr (toLowerStr eventType) p) = true
    · simp [h1, hbr]
    · by_cases h2 :
          (FRICTION_EVENT_PREFIXES.any fun p => startsWithStr (toLowerStr eventType) p) = true
      · simp [h1, h2, hbr]
      · by_cases h3 :
            (VIDEO_EVENT_PREFIXES.any fun p => startsWithStr (toLowerStr eventType) p) = true
        · simp [h1, h2, h3, hbr]
        · simp [h1, h2, h3] at hst

/-- C5 witness: a non-blank reason `"zoned out"` is used verbatim by
`buildReason` and surfaces as the classified `statusReason`. -/
theorem reason_verbatim_amended_witness :
    buildReason "idle.detected" (some (JsonValue.obj [("reason", JsonValue.str "zoned out")]))
      "Idle or pause pattern detected" = "zoned out" ∧
    (classifyEvent "idle.detected"
        (some (JsonValue.obj [("reason", JsonValue.str "zoned out")]))).statusReason =
      some "zoned out" :=
  ⟨(reason_verbatim_amended "idle.detected" "Idle or pause pattern detected" "zoned out"
      [("reason", JsonValue.str "zoned out")] rfl).1 (by decide),
   (reason_verbatim_amended "idle.detected" "Idle or pause pattern detected" "zoned out"
      [("reason", JsonValue.str "zoned out")] rfl).2.2 (by decide) "attention_drift" (by decide)⟩

/-- C2 counterexample: an ingested event carrying `occurredAt = 1000`
is stored with `createdAt = 1000`, not the server ingestion time 2000:
the code sets `createdAt: event.occurredAt ?? new Date()`. -/
theorem record_createdAt_counterexample :
    (recordActivityEvents "u" [sampleInput] 2000).map (fun r => r.createdAt) = [1000] ∧
    (1000 : Int) ≠ 2000 := by
  refine ⟨by decide, by decide⟩

/-- C2 amended: a stored row's `createdAt` is the client-supplied
`occurredAt` when present; only events without `occurredAt` get the
server ingestion timestamp. -/
theorem record_createdAt_amended (userId : String) (events : List TelemetryEventInput)
    (serverNow : Int) :
    (recordActivityEvents userId events serverNow).map (fun r => r.createdAt) =
      events.map (fun e => e.occurredAt.getD serverNow) := by
  simp [recordActivityEvents]

/-- C9: with a session token set and 19 events already buffered,
recording one more fills the queue to `MAX_BUFFER_SIZE = 20` and
flushes immediately: the queue is emptied and all 20 events go out as
one batch, with no flush left to the 4-second timer. -/
theorem buffer_flush_on_max_size (st : TelemetryState) (event : ClientEvent)
    (nowIso tok : String) (htok : st.currentToken = some tok)
    (hlen : st.buffer.length = 19) :
    recordTelemetryEvent st event nowIso =
      ({ st with buffer := [] },
       some ((st.buffer ++ [event]).map fun e =>
         { e with occurredAt := some (e.occurredAt.getD nowIso) })) ∧
    ((recordTelemetryEvent st event nowIso).2.map List.length) = some MAX_BUFFER_SIZE := by
  obtain ⟨ct, buf, timer⟩ := st
  simp only at htok hlen
  subst htok
  cases buf with
  | nil => simp at hlen
  | cons b rest =>
    have hr : rest.length = 18 := by simpa using hlen
    have hcond : MAX_BUFFER_SIZE ≤ (b :: (rest ++ [event])).length := by
      simp [MAX_BUFFER_SIZE, hr]
    constructor
    · simp [recordTelemetryEvent, flushBuffer, hcond, MAX_BUFFER_SIZE, hr]
    · simp [recordTelemetryEvent, flushBuffer, hcond, MAX_BUFFER_SIZE, hr]

/-- C9 witness: the concrete 19-event buffer flushes a 20-element batch
the moment the 20th event is recorded. -/
theorem buffer_flush_on_max_size_witness :
    recordTelemetryEvent bufferedNineteen sampleClientEvent "2024-01-01T00:00:00Z" =
      ({ bufferedNineteen with buffer := [] },
       some ((bufferedNineteen.buffer ++ [sampleClientEvent]).map fun e =>
         { e with occurredAt := some (e.occurredAt.getD "2024-01-01T00:00:00Z") })) ∧
    ((recordTelemetryEvent bufferedNineteen sampleClientEvent "2024-01-01T00:00:00Z").2.map
        List.length) = some MAX_BUFFER_SIZE :=
  buffer_flush_on_max_size bufferedNineteen sampleClientEvent "2024-01-01T00:00:00Z" "tok"
    rfl rfl

theorem charListLt_trans : ∀ {x y z : List Char},
    charListLt x y = true → charListLt y z = true → charListLt x z = true := by
  intro x
  induction x with
  | nil =>
    intro y z hxy hyz
    cases y with
    | nil => simp [charListLt] at hxy
    | cons b bs =>
      cases z with
      | nil => simp [charListLt] at hyz
      | cons c cs => rfl
  | cons a as ih =>
    intro y z hxy hyz
    cases y with
    | nil => simp [charListLt] at hxy
    | cons b bs =>
      cases z with
      | nil => simp [charListLt] at hyz
      | cons c cs =>
        simp only [charListLt] at hxy hyz ⊢
        by_cases hab : a < b
        · by_cases hbc : b < c
          · rw [if_pos (lt_trans hab hbc)]
          · by_cases hcb : c < b
            · rw [if_neg hbc, if_pos hcb] at hyz
              exact absurd hyz (by simp)
            · have hbceq : b = c := le_antisymm (not_lt.mp hcb) (not_lt.mp hbc)
              rw [if_pos (hbceq ▸ hab)]
        · by_cases hba : b < a
          · rw [if_neg hab, if_pos hba] at hxy
            exact absurd hxy (by simp)
          · have habeq : a = b := le_antisymm (not_lt.mp hba) (not_lt.mp hab)
            subst habeq
            rw [if_neg hab, if_neg hba] at hxy
            by_cases hac : a < c
            · rw [if_pos hac]
            · by_cases hca : c < a
              · rw [if_neg hac, if_pos hca] at hyz
                exact absurd hyz (by simp)
              · rw [if_neg hac, if_neg hca] at hyz
                rw [if_neg hac, if_neg hca]
                exact ih hxy hyz

theorem charListLt_total_of_ne : ∀ {x y : List Char}, x ≠ y →
    charListLt x y = false → charListLt y x = true := by
  intro x
  induction x with
  | nil =>
    intro y hne hxy
    cases y with
    | nil => exact absurd rfl hne
    | cons b bs => simp [charListLt] at hxy
  | cons a as ih =>
    intro y hne hxy
    cases y with
    | nil => rfl
    | cons b bs =>
      simp only [charListLt] at hxy ⊢
      by_cases hab : a < b
      · rw [if_pos hab] at hxy
        exact absurd hxy (by simp)
      · by_cases hba : b < a
        · rw [if_pos hba]
        · have habeq : a = b := le_antisymm (not_lt.mp hba) (not_lt.mp hab)
          subst habeq
          rw [if_neg hab, if_neg hab] at hxy
          rw [if_neg hab, if_neg hab]
          have hne' : as ≠ bs := by
            intro h
            exact hne (by rw [h])
          exact ih hne' hxy

theorem strLt_trans {a b c : String} (h1 : strLt a b = true) (h2 : strLt b c = true) :
    strLt a c = true :=
  charListLt_trans h1 h2

theorem strLt_total_of_ne {a b : String} (hne : a ≠ b) (h : strLt a b = false) :
    strLt b a = true := by
  apply charListLt_total_of_ne ?_ h
  intro hd
  apply hne
  cases a with
  | mk d1 =>
    cases b with
    | mk d2 => exact congrArg String.mk hd

theorem historyBefore_trans {a b c : LearnerStatusRow}
    (h1 : historyBefore a b) (h2 : historyBefore b c) : historyBefore a c := by
  rcases h1 with h1 | ⟨h1e, h1s⟩
  · rcases h2 with h2 | ⟨h2e, h2s⟩
    · exact Or.inl (lt_trans h2 h1)
    · exact Or.inl (by rw [h2e]; exact h1)
  · rcases h2 with h2 | ⟨h2e, h2s⟩
    · exact Or.inl (by rw [← h1e]; exact h2)
    · exact Or.inr ⟨by rw [h2e, h1e], strLt_trans h2s h1s⟩

theorem historyBefore_of_cmp_neg {x e : LearnerStatusRow}
    (hxid : x.eventId ≠ "") (heid : e.eventId ≠ "") (hne : x.eventId ≠ e.eventId)
    (h : historyCmp x e < 0) : historyBefore x e := by
  unfold historyCmp at h
  by_cases ht : x.createdAt ≠ e.createdAt
  · rw [if_pos ht] at h
    exact Or.inl (by linarith)
  · rw [if_neg ht, if_pos ⟨hxid, heid, hne⟩] at h
    push_neg at ht
    by_cases hs : strLt x.eventId e.eventId = true
    · rw [if_pos hs] at h
      norm_num at h
    · rw [if_neg hs] at h
      exact Or.inr ⟨ht.symm, strLt_total_of_ne hne (by simpa using hs)⟩

theorem historyBefore_of_cmp_nonneg {x e : LearnerStatusRow}
    (hxid : x.eventId ≠ "") (heid : e.eventId ≠ "") (hne : x.eventId ≠ e.eventId)
    (h : ¬ historyCmp x e < 0) : historyBefore e x := by
  unfold historyCmp at h
  by_cases ht : x.createdAt ≠ e.createdAt
  · rw [if_pos ht] at h
    refine Or.inl (lt_of_le_of_ne ?_ (fun hh => ht hh))
    have h0 : (0 : Int) ≤ e.createdAt - x.createdAt := not_lt.mp h
    linarith
  · rw [if_neg ht, if_pos ⟨hxid, heid, hne⟩] at h
    push_neg at ht
    by_cases hs : strLt x.eventId e.eventId = true
    · rw [if_pos hs] at h
      exact Or.inr ⟨ht, hs⟩
    · rw [if_neg hs] at h
      norm_num at h

theorem sortedHistory_cons (x : LearnerStatusRow) (xs : List LearnerStatusRow) :
    sortedHistoryEvents (x :: xs) = insertHistory x (sortedHistoryEvents xs) := rfl

theorem mem_insertHistory {a e : LearnerStatusRow} {l : List LearnerStatusRow} :
    a ∈ insertHistory e l ↔ a = e ∨ a ∈ l := by
  induction l with
  | nil => simp [insertHistory]
  | cons x xs ih =>
    by_cases h : historyCmp x e < 0
    · simp only [insertHistory, if_pos h, List.mem_cons, ih]
      tauto
    · simp only [insertHistory, if_neg h, List.mem_cons]

theorem mem_sortedHistory {a : LearnerStatusRow} {l : List LearnerStatusRow} :
    a ∈ sortedHistoryEvents l ↔ a ∈ l := by
  induction l with
  | nil => simp [sortedHistoryEvents]
  | cons x xs ih =>
    rw [sortedHistory_cons, mem_insertHistory, List.mem_cons, ih]

theorem pairwise_insertHistory {e : LearnerStatusRow} {l : List LearnerStatusRow}
    (heid : e.eventId ≠ "") (hids : ∀ r ∈ l, r.eventId ≠ "")
    (hdis : ∀ r ∈ l, r.eventId ≠ e.eventId)
    (hp : List.Pairwise historyBefore l) :
    List.Pairwise historyBefore (insertHistory e l) := by
  induction l with
  | nil => simp [insertHistory, List.pairwise_cons]
  | cons x xs ih =>
    rcases List.pairwise_cons.mp hp with ⟨hx, hxs⟩
    have hxid : x.eventId ≠ "" := hids x (List.mem_cons_self x xs)
    have hxdis : x.eventId ≠ e.eventId := hdis x (List.mem_cons_self x xs)
    by_cases hc : historyCmp x e < 0
    · rw [insertHistory, if_pos hc]
      refine List.pairwise_cons.mpr ⟨?_,
        ih (fun r hr => hids r (List.mem_cons_of_mem x hr))
          (fun r hr => hdis r (List.mem_cons_of_mem x hr)) hxs⟩
      intro b hb
      rcases mem_insertHistory.mp hb with rfl | hbx
      · exact historyBefore_of_cmp_neg hxid heid hxdis hc
      · exact hx b hbx
    · rw [insertHistory, if_neg hc]
      have hex : historyBefore e x := historyBefore_of_cmp_nonneg hxid heid hxdis hc
      refine List.pairwise_cons.mpr ⟨?_, hp⟩
      intro b hb
      rcases List.mem_cons.mp hb with rfl | hbxs
      · exact hex
      · exact historyBefore_trans hex (hx b hbxs)

theorem pairwise_sortedHistory {l : List LearnerStatusRow}
    (hids : ∀ r ∈ l, r.eventId ≠ "")
    (hdis : List.Pairwise (fun a b => a.eventId ≠ b.eventId) l) :
    List.Pairwise historyBefore (sortedHistoryEvents l) := by
  induction l with
  | nil => simp [sortedHistoryEvents]
  | cons x xs ih =>
    rcases List.pairwise_cons.mp hdis with ⟨hxne, hxs⟩
    rw [sortedHistory_cons]
    refine pairwise_insertHistory (hids x (List.mem_cons_self x xs)) ?_ ?_
      (ih (fun r hr => hids r (List.mem_cons_of_mem x hr)) hxs)
    · intro r hr
      exact hids r (List.mem_cons_of_mem x (mem_sortedHistory.mp hr))
    · intro r hr
      exact (hxne r (mem_sortedHistory.mp hr)).symm

/-- C4 counterexample: two rows for the same learner share the
timestamp 5 and sit in the table with event id `"a"` before `"b"`; the
history query returns them id-ascending, not id-descending — the SQL
orders by `created_at DESC` alone and provides no event-id
tie-break. -/
theorem history_tie_order_counterexample :
    (getLearnerHistory [sampleRow "a" none 5, sampleRow "b" none 5] "u" "c" 10 none).map
        (fun r => r.eventId) = ["a", "b"] ∧
    (["a", "b"] : List String) ≠ ["b", "a"] := by
  refine ⟨by decide, by decide⟩

/-- C4 amended: `getLearnerHistory` itself only guarantees newest-first
order by `createdAt` (equal timestamps are not tie-broken); the stable
total ordering — newest first, ties broken by event id descending — is
produced client-side by the dashboard's `sortedHistoryEvents`, for rows
whose event ids are non-empty and pairwise distinct (as primary keys
are). -/
theorem history_ordering_amended (table : List LearnerStatusRow) (userId courseId : String)
    (limit : Nat) (before : Option Int) (l : List LearnerStatusRow)
    (hids : ∀ r ∈ l, r.eventId ≠ "")
    (hdis : List.Pairwise (fun a b => a.eventId ≠ b.eventId) l) :
    List.Pairwise (fun x y => y.createdAt ≤ x.createdAt)
      (getLearnerHistory table userId courseId limit before) ∧
    List.Pairwise historyBefore (sortedHistoryEvents l) := by
  constructor
  · exact List.Pairwise.sublist (List.take_sublist _ _) (pairwise_sortDesc _)
  · exact pairwise_sortedHistory hids hdis

/-- C4 witness: concrete instances of both halves of the amended
ordering statement. -/
theorem history_ordering_amended_witness :
    List.Pairwise (fun x y => y.createdAt ≤ x.createdAt)
      (getLearnerHistory [sampleRow "a" none 5, sampleRow "b" none 5] "u" "c" 10 none) ∧
    List.Pairwise historyBefore
      (sortedHistoryEvents [sampleRow "a" none 5, sampleRow "b" none 5]) :=
  history_ordering_amended [sampleRow "a" none 5, sampleRow "b" none 5] "u" "c" 10 none
    [sampleRow "a" none 5, sampleRow "b" none 5] (by decide)
    (by simp [List.pairwise_cons, sampleRow])

end TutorDashboard


